import Mathlib

/-!
Shallow embedding of the two git-hook helper scripts of this repository,
`scripts/add_repo_path_header.py` (the Header Stamper) and
`scripts/block_branch.py` (the Branch Guard), together with proofs about
their behaviour.

Modelling conventions:
* text (file contents, command-line arguments, subprocess output) is a
  `List Char`;
* a resolved absolute path is the list of its components below the
  filesystem root (`pathlib.Path('/a/b').parts` without the leading
  anchor), each component again a `List Char`;
* the filesystem is a partial map from paths to contents;
* a Python exception is modelled with `Option`: a `none` result of an
  operation means the corresponding Python call raises and the exception
  propagates uncaught.
-/

/-- A resolved absolute path: the list of its components below the
filesystem root. -/
abbrev AbsPath := List (List Char)

/-- Characters stripped by Python's `str.strip()` (ASCII whitespace). -/
def isPySpace (c : Char) : Bool :=
  c = ' ' || c = '\t' || c = '\n' || c = '\r' || c = '\x0b' || c = '\x0c'

/-- Python `str.strip()`: drop whitespace from both ends. -/
def pyStrip (s : List Char) : List Char :=
  ((s.dropWhile isPySpace).reverse.dropWhile isPySpace).reverse

/-- The module body of `scripts/block_branch.py`.  Input: the raw output
of `git rev-parse --abbrev-ref HEAD`.  Output: the process exit code and
the line printed to stdout (if any).  The script strips the output, and
if the branch is `main` or `master` prints a refusal message and exits
with code 1; otherwise it falls off the end of the module and exits 0. -/
def block_branch (rawBranch : List Char) : Nat × Option (List Char) :=
  let branch := pyStrip rawBranch
  if branch = "main".toList ∨ branch = "master".toList then
    (1, some ("Commits diretos para \"".toList ++ branch
              ++ "\" não são permitidos.".toList))
  else
    (0, none)

/-- `path.relative_to(root)` of `pathlib`: succeeds with the remaining
components when `root`'s components are a prefix of `path`'s, and raises
`ValueError` (modelled as `none`) otherwise. -/
def relative_to : AbsPath → AbsPath → Option (List (List Char))
  | path, [] => some path
  | [], _ :: _ => none
  | p :: ps, r :: rs => if p = r then relative_to ps rs else none

/-- `Path.as_posix()` on a relative path: the components joined by `/`;
a path with no components (`Path('.')`) prints as `.`. -/
def relPosix (parts : List (List Char)) : List Char :=
  match parts with
  | [] => ['.']
  | ps => List.intercalate ['/'] ps

/-- The value bound to `rel_path` in `ensure_header`: the `try` block
yields a relative `pathlib.Path`; the `except ValueError` fallback binds
the plain string `path.name` instead. -/
inductive RelPathVal where
  | relpath (parts : List (List Char))
  | pystr (s : List Char)

/-- The `rel_path.as_posix()` call of `ensure_header`: defined on a
`pathlib.Path`, but an `AttributeError` (modelled as `none`) on a plain
string, which has no such method. -/
def as_posix : RelPathVal → Option (List Char)
  | .relpath parts => some (relPosix parts)
  | .pystr _ => none

/-- Lines 20-24 of `ensure_header`: try `path.relative_to(repo_root)`,
falling back to `path.name` on `ValueError`. -/
def computeRelVal (path root : AbsPath) : RelPathVal :=
  match relative_to path root with
  | some parts => .relpath parts
  | none => .pystr ((path.getLast?).getD [])

/-- The header text `f"# {rp}\n"` built from an `as_posix` result. -/
def computedHeader (rp : List Char) : List Char :=
  '#' :: ' ' :: (rp ++ ['\n'])

/-- Helper for `readlines`: walk the text accumulating the current line
(in reverse); a `'\n'` closes the line (and is kept at its end), and a
trailing line without a newline is emitted as-is. -/
def readlinesAux : List Char → List Char → List (List Char)
  | cur, [] => if cur = [] then [] else [cur.reverse]
  | cur, c :: cs =>
    if c = '\n' then (cur.reverse ++ ['\n']) :: readlinesAux [] cs
    else readlinesAux (c :: cur) cs

/-- Python `f.readlines()`: split the text into lines, each keeping its
trailing `'\n'` (the last line may lack one). -/
def readlines (s : List Char) : List (List Char) :=
  readlinesAux [] s

/-- Python `f.writelines(lines)`: concatenate the lines verbatim. -/
def writelines (lines : List (List Char)) : List Char :=
  lines.flatten

/-- Lines 30-35 of `ensure_header`: if there is a first line and it
starts with `"# "`, replace it by the header when it differs; otherwise
insert the header in front. -/
def updateLines (header : List Char) (lines : List (List Char)) :
    List (List Char) :=
  match lines with
  | [] => [header]
  | l0 :: rest =>
    if ("# ".toList).isPrefixOf l0 then
      if l0 ≠ header then header :: rest else l0 :: rest
    else
      header :: l0 :: rest

/-- `ensure_header(filepath, repo_root)` of
`scripts/add_repo_path_header.py`, acting on the (already resolved)
path, the repository root, and the current content of the file (`none`
when the file cannot be opened).  The result is the content written
back, or `none` when the call raises: an `AttributeError` from
`rel_path.as_posix()` when the path lies outside the root (the
`path.name` fallback binds a string), or the error from `open`.  Note
the header is computed before the file is opened, as in the source. -/
def ensure_header (path root : AbsPath) (content? : Option (List Char)) :
    Option (List Char) :=
  match as_posix (computeRelVal path root) with
  | none => none
  | some rp =>
    match content? with
    | none => none
    | some content =>
      some (writelines (updateLines (computedHeader rp) (readlines content)))

/-- `get_repo_root()`: the parsed output of
`git rev-parse --show-toplevel` (already stripped and split into
components; `none` models the `subprocess.CalledProcessError` that is
caught), with `Path.cwd()` as the fallback. -/
def get_repo_root (gitTopLevel : Option AbsPath) (cwd : AbsPath) : AbsPath :=
  match gitTopLevel with
  | some root => root
  | none => cwd

/-- The filesystem: content of each absolute path, `none` when absent. -/
abbrev FS := AbsPath → Option (List Char)

/-- One command-line argument of the Header Stamper: the raw argv string
and the absolute path `Path(raw).resolve()` yields for it. -/
structure Arg where
  raw : List Char
  resolved : AbsPath

/-- Python `file.endswith(".py")` on an argv string. -/
def pyEndsWith (suffix s : List Char) : Bool :=
  suffix.isSuffixOf s

/-- The `for file in sys.argv[1:]` loop of `main`: arguments ending in
`.py` are passed to `ensure_header`, which rewrites the file; a raised
exception (`none` from `ensure_header`) propagates, aborting the loop
with the filesystem as it stands and a `none` exit status (the process
dies with a nonzero exit code); an exhausted loop returns 0. -/
def mainLoop (root : AbsPath) : List Arg → FS → FS × Option Nat
  | [], fs => (fs, some 0)
  | a :: rest, fs =>
    if pyEndsWith ".py".toList a.raw then
      match ensure_header a.resolved root (fs a.resolved) with
      | none => (fs, none)
      | some newContent =>
          mainLoop root rest
            (fun p => if p = a.resolved then some newContent else fs p)
    else
      mainLoop root rest fs

/-- `main()` of `scripts/add_repo_path_header.py` (named `main_stamper`
here because Lean reserves `main` for entry points): resolve the
repository root once, then process every argument. -/
def main_stamper (gitTopLevel : Option AbsPath) (cwd : AbsPath)
    (args : List Arg) (fs : FS) : FS × Option Nat :=
  mainLoop (get_repo_root gitTopLevel cwd) args fs

/-! ### Helper lemmas about `readlines`, `writelines` and `updateLines` -/

theorem readlinesAux_flatten (s : List Char) :
    ∀ cur, (readlinesAux cur s).flatten = cur.reverse ++ s := by
  induction s with
  | nil =>
    intro cur
    by_cases h : cur = ([] : List Char) <;> simp [readlinesAux, h]
  | cons c cs ih =>
    intro cur
    by_cases hc : c = '\n'
    · subst hc; simp [readlinesAux, ih]
    · simp [readlinesAux, hc, ih]

/-- Writing back exactly the lines that were read reproduces the text. -/
theorem writelines_readlines (s : List Char) : writelines (readlines s) = s := by
  simpa [writelines, readlines] using readlinesAux_flatten s []

theorem readlinesAux_line_append (front : List Char) (s : List Char) :
    ∀ cur, '\n' ∉ front →
      readlinesAux cur (front ++ '\n' :: s) =
        (cur.reverse ++ front ++ ['\n']) :: readlinesAux [] s := by
  induction front with
  | nil => intro cur _; simp [readlinesAux]
  | cons c fr ih =>
    intro cur h
    have hc : c ≠ '\n' := fun e => h (by simp [e])
    have h2 : '\n' ∉ fr := fun m => h (List.mem_cons_of_mem _ m)
    simp [readlinesAux, hc, Ne.symm hc, ih _ h2]

theorem readlines_firstline (s : List Char) :
    ∀ cur, '\n' ∈ s →
      ∃ rest, readlinesAux cur s =
        (cur.reverse ++ s.takeWhile (fun c => c != '\n') ++ ['\n']) :: rest := by
  induction s with
  | nil => intro _ h; cases h
  | cons c cs ih =>
    intro cur h
    by_cases hc : c = '\n'
    · subst hc
      exact ⟨readlinesAux [] cs, by simp [readlinesAux]⟩
    · have h2 : '\n' ∈ cs := by
        rcases List.mem_cons.mp h with h1 | h1
        · exact absurd h1.symm hc
        · exact h1
      obtain ⟨rest, hr⟩ := ih (c :: cur) h2
      exact ⟨rest, by simp [readlinesAux, hc, Ne.symm hc, hr]⟩

theorem isPrefixOf_computedHeader (rp : List Char) :
    ("# ".toList).isPrefixOf (computedHeader rp) = true := by
  rw [List.isPrefixOf_iff_prefix]
  exact ⟨rp ++ ['\n'], rfl⟩

theorem updateLines_shape (h : List Char) (lines : List (List Char)) :
    ∃ tail, updateLines h lines = h :: tail := by
  match lines with
  | [] => exact ⟨[], rfl⟩
  | l0 :: rest =>
    by_cases hp : ("# ".toList).isPrefixOf l0 = true
    · simp only [show "# ".toList = ['#', ' '] from rfl,
        List.isPrefixOf_iff_prefix] at hp
      by_cases he : l0 = h
      · subst he; exact ⟨rest, by simp [updateLines, hp]⟩
      · exact ⟨rest, by simp [updateLines, hp, he]⟩
    · simp only [show "# ".toList = ['#', ' '] from rfl,
        List.isPrefixOf_iff_prefix] at hp
      exact ⟨l0 :: rest, by simp [updateLines, hp]⟩

theorem updateLines_keep (h : List Char) (rest : List (List Char))
    (hp : ("# ".toList).isPrefixOf h = true) :
    updateLines h (h :: rest) = h :: rest := by
  simp only [show "# ".toList = ['#', ' '] from rfl,
    List.isPrefixOf_iff_prefix] at hp
  simp [updateLines, hp]

/-- Behaviour of `ensure_header` on a path inside the root. -/
theorem ensure_header_eq (path root : AbsPath) (rel : List (List Char))
    (content : List Char) (hrel : relative_to path root = some rel) :
    ensure_header path root (some content) =
      some (writelines (updateLines (computedHeader (relPosix rel))
        (readlines content))) := by
  simp [ensure_header, computeRelVal, hrel, as_posix]

/-- Reading a text that begins with a newline-free header line. -/
theorem readlines_header_append (rp tail : List Char) (h : '\n' ∉ rp) :
    readlines (computedHeader rp ++ tail) =
      computedHeader rp :: readlines tail := by
  have he : computedHeader rp ++ tail = ('#' :: ' ' :: rp) ++ '\n' :: tail := by
    simp [computedHeader]
  have hf : '\n' ∉ ('#' :: ' ' :: rp) := by
    intro m
    rcases List.mem_cons.mp m with h1 | h1
    · exact absurd h1 (by decide)
    · rcases List.mem_cons.mp h1 with h2 | h2
      · exact absurd h2 (by decide)
      · exact h h2
  rw [readlines, he, readlinesAux_line_append _ _ _ hf]
  simp [computedHeader, readlines]

theorem flatten_readlines (s : List Char) : (readlines s).flatten = s := by
  simpa [readlines] using readlinesAux_flatten s []

theorem updateLines_replace (h l0 : List Char) (rest : List (List Char))
    (hp : ("# ".toList).isPrefixOf l0 = true) (hne : l0 ≠ h) :
    updateLines h (l0 :: rest) = h :: rest := by
  simp only [show "# ".toList = ['#', ' '] from rfl,
    List.isPrefixOf_iff_prefix] at hp
  simp [updateLines, hp, hne]

theorem updateLines_insert (h l0 : List Char) (rest : List (List Char))
    (hp : ("# ".toList).isPrefixOf l0 = false) :
    updateLines h (l0 :: rest) = h :: l0 :: rest := by
  have hp2 : ¬ ("# ".toList).isPrefixOf l0 = true := fun hc =>
    Bool.noConfusion (hp.symm.trans hc)
  simp only [show "# ".toList = ['#', ' '] from rfl,
    List.isPrefixOf_iff_prefix] at hp2
  simp [updateLines, hp2]

/-- Any successful `ensure_header` run writes some header followed by
the flattened remaining lines. -/
theorem ensure_header_some_shape (path root : AbsPath)
    (c? : Option (List Char)) (out : List Char)
    (h : ensure_header path root c? = some out) :
    ∃ rp tail, out = computedHeader rp ++ writelines tail := by
  cases hrel : relative_to path root with
  | none =>
    rw [show ensure_header path root c? = none from by
      simp [ensure_header, computeRelVal, hrel, as_posix]] at h
    cases h
  | some rel =>
    cases c? with
    | none =>
      rw [show ensure_header path root none = none from by
        simp [ensure_header, computeRelVal, hrel, as_posix]] at h
      cases h
    | some content =>
      rw [ensure_header_eq path root rel content hrel] at h
      obtain ⟨tail, ht⟩ :=
        updateLines_shape (computedHeader (relPosix rel)) (readlines content)
      rw [ht] at h
      refine ⟨relPosix rel, tail, ?_⟩
      have h2 := Option.some.inj h
      rw [← h2]
      simp [writelines]

/-- The first line of a text that begins with a computed header starts
with the comment marker and ends with a newline. -/
theorem firstline_of_header (rp tail : List Char) :
    ∃ l0 rest, readlines (computedHeader rp ++ tail) = l0 :: rest ∧
      ("# ".toList).isPrefixOf l0 = true ∧ l0.getLast? = some '\n' := by
  have hmem : '\n' ∈ computedHeader rp ++ tail := by simp [computedHeader]
  obtain ⟨rest, hr⟩ :=
    readlines_firstline (computedHeader rp ++ tail) [] hmem
  simp only [List.reverse_nil, List.nil_append] at hr
  refine ⟨_, rest, hr, ?_, ?_⟩
  · have hs : computedHeader rp ++ tail = '#' :: ' ' :: (rp ++ '\n' :: tail) := by
      simp [computedHeader]
    rw [hs, List.takeWhile_cons_of_pos (by decide),
      List.takeWhile_cons_of_pos (by decide),
      show ("# ".toList) = ['#', ' '] from rfl, List.isPrefixOf_iff_prefix]
    exact ⟨_, rfl⟩
  · exact List.getLast?_concat _

/-! ### Claim theorems -/

/-- C1: for a file inside the repository root, if the first line starts
with `"# "` and differs from the computed header `# <relative-path>`,
exactly that first line is replaced by the header and the remaining
lines are written back unchanged and in order; if the first line does
not start with `"# "`, or the file is empty, the header is inserted as a
new first line and the original content follows unchanged. -/
theorem ensure_header_first_line_cases (path root : AbsPath)
    (rel : List (List Char)) (content : List Char)
    (hrel : relative_to path root = some rel) :
    (readlines content = [] →
      ensure_header path root (some content) =
        some (computedHeader (relPosix rel))) ∧
    (∀ l0 rest, readlines content = l0 :: rest →
      (("# ".toList).isPrefixOf l0 = true →
        l0 ≠ computedHeader (relPosix rel) →
        ensure_header path root (some content) =
          some (computedHeader (relPosix rel) ++ writelines rest)) ∧
      (("# ".toList).isPrefixOf l0 = false →
        ensure_header path root (some content) =
          some (computedHeader (relPosix rel) ++ content))) := by
  constructor
  · intro h0
    rw [ensure_header_eq path root rel content hrel, h0]
    simp [updateLines, writelines]
  · intro l0 rest hl
    constructor
    · intro hp hne
      rw [ensure_header_eq path root rel content hrel, hl,
        updateLines_replace _ _ _ hp hne]
      simp [writelines]
    · intro hp
      rw [ensure_header_eq path root rel content hrel, hl,
        updateLines_insert _ _ _ hp]
      have hc : content = l0 ++ writelines rest := by
        conv_lhs => rw [← writelines_readlines content]
        rw [hl]
        simp [writelines]
      rw [hc]
      simp [writelines]

/-- Witness for C1: stamping a headerless file inserts the header in
front of the untouched original content. -/
theorem ensure_header_first_line_cases_witness :
    ensure_header [['r'], ['f', '.', 'p', 'y']] [['r']]
        (some "print(1)\n".toList) =
      some (computedHeader (relPosix [['f', '.', 'p', 'y']])
        ++ "print(1)\n".toList) :=
  ((ensure_header_first_line_cases [['r'], ['f', '.', 'p', 'y']] [['r']]
      [['f', '.', 'p', 'y']] "print(1)\n".toList (by decide)).2
    "print(1)\n".toList [] (by decide)).2 (by decide)

/-- C2: for a file outside the repository root the `except ValueError`
fallback binds the plain string `path.name` to `rel_path`, and the
subsequent `rel_path.as_posix()` raises `AttributeError` (a string has
no `as_posix` method), so `ensure_header` aborts without writing instead
of completing with a `# <basename>` header. -/
theorem ensure_header_outside_root_raises (path root : AbsPath)
    (content? : Option (List Char)) (h : relative_to path root = none) :
    ensure_header path root content? = none := by
  simp [ensure_header, computeRelVal, h, as_posix]

/-- Witness for C2: a concrete file outside the root makes
`ensure_header` raise. -/
theorem ensure_header_outside_root_raises_witness :
    ensure_header [['q'], ['f', '.', 'p', 'y']] [['r']]
      (some "print(1)\n".toList) = none :=
  ensure_header_outside_root_raises [['q'], ['f', '.', 'p', 'y']] [['r']]
    (some "print(1)\n".toList) (by decide)

/-- C3 counterexample: for the file `/r/a⏎b.py` — a filename containing
a newline — the computed header spans two `readlines` lines, so a second
run sees a first line that starts with `"# "` but differs from the
header and replaces it, producing different content than the first run
left: the stamper is not idempotent as claimed. -/
theorem ensure_header_not_idempotent :
    ensure_header [['r'], ['a', '\n', 'b', '.', 'p', 'y']] [['r']]
        (ensure_header [['r'], ['a', '\n', 'b', '.', 'p', 'y']] [['r']]
          (some "x\n".toList)) ≠
      ensure_header [['r'], ['a', '\n', 'b', '.', 'p', 'y']] [['r']]
        (some "x\n".toList) := by decide

/-- C3 amended: running the stamper twice in succession on the same file
with the same repository root is idempotent provided the file's computed
relative path contains no newline character. -/
theorem ensure_header_idempotent (path root : AbsPath)
    (rel : List (List Char)) (content out : List Char)
    (hrel : relative_to path root = some rel)
    (hnl : '\n' ∉ relPosix rel)
    (h : ensure_header path root (some content) = some out) :
    ensure_header path root (some out) = some out := by
  rw [ensure_header_eq path root rel content hrel] at h
  obtain ⟨tail, ht⟩ :=
    updateLines_shape (computedHeader (relPosix rel)) (readlines content)
  rw [ht] at h
  have hout : out = computedHeader (relPosix rel) ++ writelines tail := by
    have h2 := Option.some.inj h
    rw [← h2]
    simp [writelines]
  rw [ensure_header_eq path root rel out hrel, hout,
    readlines_header_append _ _ hnl,
    updateLines_keep _ _ (isPrefixOf_computedHeader _)]
  simp [writelines, flatten_readlines]

/-- Witness for C3 (amended): a second run on the output of a first run
reproduces that output. -/
theorem ensure_header_idempotent_witness :
    ensure_header [['r'], ['f', '.', 'p', 'y']] [['r']]
      (some "# f.py\nx = 1\n".toList) = some "# f.py\nx = 1\n".toList :=
  ensure_header_idempotent [['r'], ['f', '.', 'p', 'y']] [['r']]
    [['f', '.', 'p', 'y']] "# old.py\nx = 1\n".toList
    "# f.py\nx = 1\n".toList (by decide) (by decide) (by decide)

/-- C5: a file whose first line already equals the computed header (with
its trailing newline) is written back byte-identically. -/
theorem ensure_header_already_correct (path root : AbsPath)
    (rel : List (List Char)) (content : List Char) (rest : List (List Char))
    (hrel : relative_to path root = some rel)
    (hline : readlines content = computedHeader (relPosix rel) :: rest) :
    ensure_header path root (some content) = some content := by
  rw [ensure_header_eq path root rel content hrel, hline,
    updateLines_keep _ _ (isPrefixOf_computedHeader _), ← hline,
    writelines_readlines]

/-- Witness for C5: a correctly stamped concrete file is unchanged. -/
theorem ensure_header_already_correct_witness :
    ensure_header [['r'], ['f', '.', 'p', 'y']] [['r']]
      (some "# f.py\nprint(1)\n".toList) =
      some "# f.py\nprint(1)\n".toList :=
  ensure_header_already_correct [['r'], ['f', '.', 'p', 'y']] [['r']]
    [['f', '.', 'p', 'y']] "# f.py\nprint(1)\n".toList
    ["print(1)\n".toList] (by decide) (by decide)

/-- C4: the Branch Guard exits with code 1 and prints a message
containing the (stripped) branch name if and only if that name is
`main` or `master`; every other branch name exits 0 with no output. -/
theorem block_branch_spec (raw : List Char) :
    (((block_branch raw).1 = 1 ∧
        ∃ pre post, (block_branch raw).2 = some (pre ++ pyStrip raw ++ post)) ↔
      (pyStrip raw = "main".toList ∨ pyStrip raw = "master".toList)) ∧
    (¬(pyStrip raw = "main".toList ∨ pyStrip raw = "master".toList) →
      (block_branch raw).1 = 0 ∧ (block_branch raw).2 = none) := by
  by_cases hb : pyStrip raw = "main".toList ∨ pyStrip raw = "master".toList
  · have hpos : block_branch raw =
        (1, some ("Commits diretos para \"".toList ++ pyStrip raw
          ++ "\" não são permitidos.".toList)) := by
      simp only [block_branch]
      rw [if_pos hb]
    refine ⟨⟨fun _ => hb, fun _ => ?_⟩, fun hc => absurd hb hc⟩
    rw [hpos]
    exact ⟨rfl, "Commits diretos para \"".toList,
      "\" não são permitidos.".toList, rfl⟩
  · have hneg : block_branch raw = (0, none) := by
      simp only [block_branch]
      rw [if_neg hb]
    refine ⟨⟨fun hcontra => ?_, fun hc => absurd hc hb⟩,
      fun _ => by rw [hneg]; exact ⟨rfl, rfl⟩⟩
    rw [hneg] at hcontra
    exact absurd hcontra.1 (by decide)

/-- Witness for C4: the branch `main` (here with surrounding whitespace
as `git` prints it) is refused with exit code 1 and a message containing
the branch name, and `feature/x` passes silently with exit code 0. -/
theorem block_branch_spec_witness :
    ((block_branch " main\n".toList).1 = 1 ∧
      ∃ pre post, (block_branch " main\n".toList).2 =
        some (pre ++ pyStrip " main\n".toList ++ post)) ∧
    ((block_branch "feature/x".toList).1 = 0 ∧
      (block_branch "feature/x".toList).2 = none) :=
  ⟨(block_branch_spec " main\n".toList).1.mpr (by decide),
    (block_branch_spec "feature/x".toList).2 (by decide)⟩

/-- C6: when the repository-root query raises
`subprocess.CalledProcessError`, `get_repo_root` silently returns the
current working directory, and the whole stamper run is exactly the run
rooted at the working directory — the lookup failure raises nothing. -/
theorem get_repo_root_fallback (cwd : AbsPath) (args : List Arg) (fs : FS) :
    get_repo_root none cwd = cwd ∧
      main_stamper none cwd args fs = main_stamper (some cwd) cwd args fs :=
  ⟨rfl, rfl⟩

/-- C7 counterexample: an invocation whose single argument `a.py` names
a file that does not exist aborts with an uncaught exception from
`open` (a nonzero process exit), so the exit code is not always 0. -/
theorem main_stamper_nonzero_exit_on_missing_file :
    (main_stamper none [] [⟨"a.py".toList, [['a', '.', 'p', 'y']]⟩]
        (fun _ => none)).2 ≠ some 0 := by decide

/-- C7 amended: an invocation of the stamper either completes with
process exit code 0 or aborts with an uncaught per-file exception (a
nonzero exit); no run completes with any other exit code. -/
theorem main_stamper_exit_zero_or_abort (gitTopLevel : Option AbsPath)
    (cwd : AbsPath) (args : List Arg) (fs : FS) :
    (main_stamper gitTopLevel cwd args fs).2 = some 0 ∨
      (main_stamper gitTopLevel cwd args fs).2 = none := by
  unfold main_stamper
  generalize get_repo_root gitTopLevel cwd = root
  induction args generalizing fs with
  | nil => exact Or.inl rfl
  | cons a rest ih =>
    by_cases hp : pyEndsWith ['.', 'p', 'y'] a.raw = true
    · cases he : ensure_header a.resolved root (fs a.resolved) with
      | none => exact Or.inr (by simp [mainLoop, hp, he])
      | some newContent =>
          simpa [mainLoop, hp, he] using
            ih (fun p => if p = a.resolved then some newContent else fs p)
    · simpa [mainLoop, hp] using ih fs

/-- C8: an argument that does not end in `.py` is skipped entirely: the
run with it is the run without it, so its file is never opened and no
content changes on its account. -/
theorem main_stamper_skips_non_py (gitTopLevel : Option AbsPath)
    (cwd : AbsPath) (a : Arg) (rest : List Arg) (fs : FS)
    (h : pyEndsWith ".py".toList a.raw = false) :
    main_stamper gitTopLevel cwd (a :: rest) fs =
      main_stamper gitTopLevel cwd rest fs := by
  have h2 : pyEndsWith ['.', 'p', 'y'] a.raw = false := h
  unfold main_stamper
  simp [mainLoop, h2]

/-- Witness for C8: a `README.md` argument is skipped. -/
theorem main_stamper_skips_non_py_witness :
    main_stamper none [] [⟨"README.md".toList, [['R']]⟩] (fun _ => none) =
      main_stamper none [] [] (fun _ => none) :=
  main_stamper_skips_non_py none [] ⟨"README.md".toList, [['R']]⟩ []
    (fun _ => none) (by decide)

/-- C9: every completed `ensure_header` run leaves a non-empty file
whose first line starts with `"# "` and ends with a newline; since this
holds of every successful run, the invariant is established by the
first run and preserved by all later ones. -/
theorem ensure_header_header_line_invariant (path root : AbsPath)
    (content? : Option (List Char)) (out : List Char)
    (h : ensure_header path root content? = some out) :
    out ≠ [] ∧ ∃ l0 rest, readlines out = l0 :: rest ∧
      ("# ".toList).isPrefixOf l0 = true ∧ l0.getLast? = some '\n' := by
  obtain ⟨rp, tail, hout⟩ := ensure_header_some_shape path root content? out h
  constructor
  · rw [hout]; simp [computedHeader]
  · rw [hout]; exact firstline_of_header rp (writelines tail)

/-- Witness for C9: stamping a concrete empty file establishes the
header-line invariant. -/
theorem ensure_header_header_line_invariant_witness :
    "# f.py\n".toList ≠ [] ∧ ∃ l0 rest,
      readlines "# f.py\n".toList = l0 :: rest ∧
      ("# ".toList).isPrefixOf l0 = true ∧ l0.getLast? = some '\n' :=
  ensure_header_header_line_invariant [['r'], ['f', '.', 'p', 'y']] [['r']]
    (some "".toList) "# f.py\n".toList (by decide)

/-- C10: a first line that starts with `#` but not with `"# "` (such as
a shebang) is not recognized as a header comment: the computed header is
inserted above it, and afterwards the file's first line differs from the
shebang line. -/
theorem ensure_header_shebang (path root : AbsPath)
    (rel : List (List Char)) (content out l0 : List Char)
    (rest : List (List Char))
    (hrel : relative_to path root = some rel)
    (hlines : readlines content = l0 :: rest)
    (_hhash : ("#".toList).isPrefixOf l0 = true)
    (hns : ("# ".toList).isPrefixOf l0 = false)
    (h : ensure_header path root (some content) = some out) :
    out = computedHeader (relPosix rel) ++ content ∧
      ∃ f0 frest, readlines out = f0 :: frest ∧ f0 ≠ l0 := by
  have hout : out = computedHeader (relPosix rel) ++ content := by
    rw [ensure_header_eq path root rel content hrel, hlines,
      updateLines_insert _ _ _ hns] at h
    have h2 := Option.some.inj h
    rw [← h2]
    have hc : content = l0 ++ writelines rest := by
      conv_lhs => rw [← writelines_readlines content]
      rw [hlines]
      simp [writelines]
    rw [hc]
    simp [writelines]
  refine ⟨hout, ?_⟩
  obtain ⟨f0, frest, hf, hfp, _⟩ :=
    firstline_of_header (relPosix rel) content
  rw [hout]
  refine ⟨f0, frest, hf, fun he => ?_⟩
  rw [he] at hfp
  exact Bool.noConfusion (hns.symm.trans hfp)

/-- Witness for C10: a concrete shebang file gets the header above the
shebang, which is no longer the first line. -/
theorem ensure_header_shebang_witness :
    "# f.py\n#!x\ny\n".toList =
      computedHeader (relPosix [['f', '.', 'p', 'y']]) ++ "#!x\ny\n".toList ∧
    ∃ f0 frest, readlines "# f.py\n#!x\ny\n".toList = f0 :: frest ∧
      f0 ≠ "#!x\n".toList :=
  ensure_header_shebang [['r'], ['f', '.', 'p', 'y']] [['r']]
    [['f', '.', 'p', 'y']] "#!x\ny\n".toList "# f.py\n#!x\ny\n".toList
    "#!x\n".toList ["y\n".toList] (by decide) (by decide) (by decide)
    (by decide) (by decide)

